import Mathlib

/-!
Verification of the anonymous Q&A room service in src/api/index.py.

The document store is embedded as an explicit state: a list of room
documents, a list of message documents, and a counter supplying the
ObjectId assigned by the store at each insert. Each request handler is
embedded as a function from its inputs and the state to a response
(an Except value for handlers that can raise an HTTPException) and the
resulting state. Randomness in the room code generator is embedded as
an oracle function supplying the indices that random.choice draws, and
server timestamps are passed in as an explicit argument.
-/

namespace AnonSphere

/-- Alphabet used by generate_room_code, exactly the string literal in
the source: A to Z without O, followed by the digits 1 to 9. -/
def roomChars : List Char := "ABCDEFGHIJKLMNPQRSTUVWXYZ123456789".toList

/-- Embedding of the Python str.upper method; the handlers only apply it
to room codes, for which the ASCII mapping of Char.toUpper agrees with
Python. -/
def pyUpper (s : String) : String := ⟨s.data.map Char.toUpper⟩

/-- Embedding of the Python str.lower method on ASCII strings, used to
state case insensitivity of room lookup. -/
def pyLower (s : String) : String := ⟨s.data.map Char.toLower⟩

/-- Characters accepted by the bson ObjectId constructor inside a hex
string. -/
def isHexDigitChar (c : Char) : Bool :=
  (decide ('0' ≤ c) && decide (c ≤ '9'))
    || (decide ('a' ≤ c) && decide (c ≤ 'f'))
    || (decide ('A' ≤ c) && decide (c ≤ 'F'))

/-- Numeric value of a hex digit character. -/
def hexVal (c : Char) : Nat :=
  if '0' ≤ c ∧ c ≤ '9' then c.toNat - '0'.toNat
  else if 'a' ≤ c ∧ c ≤ 'f' then c.toNat - 'a'.toNat + 10
  else c.toNat - 'A'.toNat + 10

/-- Embedding of the bson ObjectId constructor applied to a string: it
succeeds exactly on 24 character hex strings, which it reads as a big
endian hex number; on any other string it raises, which the handlers
translate to a bad request error. -/
def parseObjectId (s : String) : Option Nat :=
  if s.length == 24 && s.data.all isHexDigitChar then
    some (s.data.foldl (fun acc c => 16 * acc + hexVal c) 0)
  else none

/-- Lowercase hex digit for a value below 16. -/
def hexChar (n : Nat) : Char :=
  if n < 10 then Char.ofNat (48 + n) else Char.ofNat (87 + n)

/-- Embedding of str applied to an ObjectId: 24 lowercase hex
characters, big endian. -/
def oidToString (oid : Nat) : String :=
  ⟨(List.range 24).map (fun i => hexChar (oid / 16 ^ (23 - i) % 16))⟩

/-- A room document as stored in the rooms collection: the fields of the
pydantic Room model plus the store assigned id. -/
structure RoomDoc where
  oid : Nat
  room_code : String
  hostId : String
  createdAt : Nat
deriving DecidableEq, Repr

/-- A message document as stored in the messages collection. -/
structure MessageDoc where
  oid : Nat
  room_code : String
  text : String
  isCompleted : Bool
  timestamp : Nat
deriving DecidableEq, Repr

/-- The document store: the two collections and the next ObjectId the
store will assign. -/
structure DB where
  rooms : List RoomDoc
  messages : List MessageDoc
  nextOid : Nat
deriving DecidableEq, Repr

/-- The two HTTPException classes the handlers raise. -/
inductive ApiError where
  | badRequest (detail : String)
  | notFound (detail : String)
deriving DecidableEq, Repr

/-- The response body of create_room: the pydantic Room model. -/
structure Room where
  room_code : String
  hostId : String
  createdAt : Nat
deriving DecidableEq, Repr

/-- The response body of join_room: the room document with its store id
converted to a plain string. -/
structure RoomResp where
  id : String
  room_code : String
  hostId : String
  createdAt : Nat
deriving DecidableEq, Repr

/-- The response body of send_message. -/
structure SendResp where
  status : String
  message_id : String
deriving DecidableEq, Repr

/-- One element of the response body of get_messages: a message document
with its store id converted to a plain string. -/
structure MessageOut where
  id : String
  room_code : String
  text : String
  isCompleted : Bool
  timestamp : Nat
deriving DecidableEq, Repr

/-- Embedding of generate_room_code. The oracle pick supplies the index
random.choice draws at each of the six steps; it is reduced modulo the
alphabet length because random.choice always returns an element of its
argument. -/
def generate_room_code (pick : Nat → Nat) : String :=
  ⟨(List.range 6).map (fun i => roomChars.getD (pick i % roomChars.length) 'A')⟩

/-- The code produced by attempt k of the retry loop in create_room:
attempt k consumes the oracle entries 6 k to 6 k + 5. -/
def genCodeAt (pick : Nat → Nat) (k : Nat) : String :=
  generate_room_code (fun i => pick (6 * k + i))

/-- Embedding of the generate and check loop in create_room: while
find_one reports a room with the candidate code, regenerate. The fuel
argument bounds the number of attempts; the Python loop is unbounded. -/
def findFreshCode (pick : Nat → Nat) (db : DB) : Nat → Nat → Option String
  | _, 0 => none
  | k, fuel + 1 =>
    let code := genCodeAt pick k
    if (db.rooms.find? (fun r => r.room_code == code)).isSome then
      findFreshCode pick db (k + 1) fuel
    else
      some code

/-- Embedding of the create_room handler. -/
def create_room (pick : Nat → Nat) (fuel : Nat) (hostId : String) (now : Nat)
    (db : DB) : Option (Room × DB) :=
  match findFreshCode pick db 0 fuel with
  | none => none
  | some code =>
      some (⟨code, hostId, now⟩,
        ⟨db.rooms ++ [⟨db.nextOid, code, hostId, now⟩], db.messages, db.nextOid + 1⟩)

/-- Embedding of the join_room handler. -/
def join_room (room_code : String) (db : DB) : Except ApiError RoomResp :=
  match db.rooms.find? (fun r => r.room_code == pyUpper room_code) with
  | none => .error (.notFound "Room not found")
  | some r => .ok ⟨oidToString r.oid, r.room_code, r.hostId, r.createdAt⟩

/-- Embedding of the send_message handler; now is the server timestamp
datetime.datetime.now assigns. -/
def send_message (room_code : String) (text : String) (now : Nat) (db : DB) :
    SendResp × DB :=
  (⟨"ok", oidToString db.nextOid⟩,
   ⟨db.rooms, db.messages ++ [⟨db.nextOid, pyUpper room_code, text, false, now⟩],
    db.nextOid + 1⟩)

/-- Order used by the sort call in get_messages: ascending timestamp. -/
def tsLe (a b : MessageDoc) : Prop := a.timestamp ≤ b.timestamp

instance : DecidableRel tsLe := fun a b => Nat.decLe a.timestamp b.timestamp

instance : IsTotal MessageDoc tsLe := ⟨fun a b => Nat.le_total a.timestamp b.timestamp⟩

instance : IsTrans MessageDoc tsLe := ⟨fun _ _ _ => Nat.le_trans⟩

/-- Embedding of the find plus sort in get_messages: all message
documents whose room_code equals the uppercased input, ordered by
timestamp ascending. -/
def roomMsgs (room_code : String) (ms : List MessageDoc) : List MessageDoc :=
  List.insertionSort tsLe (ms.filter (fun m => m.room_code == pyUpper room_code))

/-- The per document conversion get_messages performs before returning:
the store id mapped to its string form. -/
def msgOut (m : MessageDoc) : MessageOut :=
  ⟨oidToString m.oid, m.room_code, m.text, m.isCompleted, m.timestamp⟩

/-- Embedding of the get_messages handler. -/
def get_messages (room_code : String) (db : DB) : List MessageOut :=
  (roomMsgs room_code db.messages).map msgOut

/-- Embedding of update_one on the messages collection with a set of the
isCompleted field: the first document whose id matches is updated, and
the matched count is reported. -/
def updateOne (oid : Nat) (b : Bool) : List MessageDoc → Nat × List MessageDoc
  | [] => (0, [])
  | m :: rest =>
    if m.oid == oid then (1, { m with isCompleted := b } :: rest)
    else
      let r := updateOne oid b rest
      (r.1, m :: r.2)

/-- Embedding of the toggle_message handler. -/
def toggle_message (message_id : String) (is_completed : Bool) (db : DB) :
    Except ApiError Unit × DB :=
  match parseObjectId message_id with
  | none => (.error (.badRequest "Invalid message_id"), db)
  | some oid =>
    let r := updateOne oid is_completed db.messages
    if r.1 == 0 then (.error (.notFound "Message not found"), ⟨db.rooms, r.2, db.nextOid⟩)
    else (.ok (), ⟨db.rooms, r.2, db.nextOid⟩)

/-- Embedding of delete_one on the messages collection: the first
document whose id matches is removed, and the deleted count is
reported. -/
def deleteOne (oid : Nat) : List MessageDoc → Nat × List MessageDoc
  | [] => (0, [])
  | m :: rest =>
    if m.oid == oid then (1, rest)
    else
      let r := deleteOne oid rest
      (r.1, m :: r.2)

/-- Embedding of the delete_message handler. -/
def delete_message (message_id : String) (db : DB) : Except ApiError Unit × DB :=
  match parseObjectId message_id with
  | none => (.error (.badRequest "Invalid message_id"), db)
  | some oid =>
    let r := deleteOne oid db.messages
    if r.1 == 0 then (.error (.notFound "Message not found"), ⟨db.rooms, r.2, db.nextOid⟩)
    else (.ok (), ⟨db.rooms, r.2, db.nextOid⟩)

/-! Helper lemmas about the room code alphabet and the generator. -/

lemma roomChars_shape :
    ∀ c ∈ roomChars, ('A' ≤ c ∧ c ≤ 'Z' ∧ c ≠ 'O') ∨ ('1' ≤ c ∧ c ≤ '9') := by
  decide

lemma roomChars_getD_mem (n : Nat) :
    roomChars.getD (n % roomChars.length) 'A' ∈ roomChars := by
  have h : n % roomChars.length < roomChars.length := Nat.mod_lt _ (by decide)
  rw [List.getD_eq_getElem _ _ h]
  exact List.getElem_mem h

lemma generate_room_code_length (pick : Nat → Nat) :
    (generate_room_code pick).length = 6 := by
  simp [generate_room_code, String.length]

lemma generate_room_code_mem (pick : Nat → Nat) :
    ∀ c ∈ (generate_room_code pick).data, c ∈ roomChars := by
  intro c hc
  simp only [generate_room_code, List.mem_map] at hc
  obtain ⟨i, _, rfl⟩ := hc
  exact roomChars_getD_mem _

lemma findFreshCode_some (pick : Nat → Nat) (db : DB) :
    ∀ fuel k code, findFreshCode pick db k fuel = some code →
      db.rooms.find? (fun r => r.room_code == code) = none
      ∧ ∃ j, code = genCodeAt pick j := by
  intro fuel
  induction fuel with
  | zero => intro k code h; simp [findFreshCode] at h
  | succ n ih =>
    intro k code h
    rw [findFreshCode] at h
    by_cases hc : (db.rooms.find? (fun r => r.room_code == genCodeAt pick k)).isSome
    · rw [if_pos hc] at h
      exact ih (k + 1) code h
    · rw [if_neg hc] at h
      cases h
      exact ⟨Option.not_isSome_iff_eq_none.mp hc, k, rfl⟩

lemma create_room_some (pick : Nat → Nat) (fuel : Nat) (hostId : String)
    (now : Nat) (db : DB) (room : Room) (db2 : DB)
    (h : create_room pick fuel hostId now db = some (room, db2)) :
    ∃ code, findFreshCode pick db 0 fuel = some code
      ∧ room = ⟨code, hostId, now⟩
      ∧ db2 = ⟨db.rooms ++ [⟨db.nextOid, code, hostId, now⟩], db.messages,
          db.nextOid + 1⟩ := by
  rw [create_room] at h
  cases hf : findFreshCode pick db 0 fuel with
  | none => rw [hf] at h; cases h
  | some code =>
    rw [hf] at h
    refine ⟨code, rfl, ?_, ?_⟩
    · cases h; rfl
    · cases h; rfl

/-- Claim C1 counterexample: the alphabet used by generate_room_code has
34 symbols, not 35 as the claim states — A to Z minus O gives 25 letters
and the digits 1 to 9 give 9 more. -/
theorem c1_counterexample :
    roomChars.Nodup ∧ roomChars.length = 34 ∧ ¬ roomChars.length = 35 := by
  decide

/-- Claim C1 (amended): every room code produced by generate_room_code,
and hence every room_code returned by a successful create_room, is a
string of exactly 6 characters, each drawn from the alphabet A to Z
minus O together with the digits 1 to 9 — an alphabet of 34 symbols. -/
theorem c1_room_code_shape (pick : Nat → Nat) (fuel : Nat) (hostId : String)
    (now : Nat) (db : DB) (room : Room) (db2 : DB)
    (h : create_room pick fuel hostId now db = some (room, db2)) :
    (generate_room_code pick).length = 6
    ∧ (∀ c ∈ (generate_room_code pick).data,
        ('A' ≤ c ∧ c ≤ 'Z' ∧ c ≠ 'O') ∨ ('1' ≤ c ∧ c ≤ '9'))
    ∧ room.room_code.length = 6
    ∧ (∀ c ∈ room.room_code.data,
        ('A' ≤ c ∧ c ≤ 'Z' ∧ c ≠ 'O') ∨ ('1' ≤ c ∧ c ≤ '9'))
    ∧ roomChars.length = 34 := by
  obtain ⟨code, hf, hroom, _⟩ := create_room_some pick fuel hostId now db room db2 h
  obtain ⟨_, j, hcode⟩ := findFreshCode_some pick db fuel 0 code hf
  subst hroom
  refine ⟨generate_room_code_length pick,
    fun c hc => roomChars_shape c (generate_room_code_mem pick c hc), ?_, ?_, by decide⟩
  · show code.length = 6
    rw [hcode]
    exact generate_room_code_length _
  · show ∀ c ∈ code.data, _
    rw [hcode]
    exact fun c hc => roomChars_shape c (generate_room_code_mem _ c hc)

/-- Claim C1 witness at a concrete run of create_room. -/
theorem c1_witness :
    (generate_room_code (fun _ => 0)).length = 6 ∧ roomChars.length = 34 :=
  have h := c1_room_code_shape (fun _ => 0) 1 "h1" 0 ⟨[], [], 0⟩ ⟨"AAAAAA", "h1", 0⟩
    ⟨[⟨0, "AAAAAA", "h1", 0⟩], [], 1⟩ (by decide)
  ⟨h.1, h.2.2.2.2⟩

/-- Claim C2: when room codes in the store are pairwise distinct, a
successful create_room returns a room_code not present before the call,
and distinctness of room codes is preserved. -/
theorem c2_create_room_fresh (pick : Nat → Nat) (fuel : Nat) (hostId : String)
    (now : Nat) (db : DB) (room : Room) (db2 : DB)
    (hnd : (db.rooms.map RoomDoc.room_code).Nodup)
    (h : create_room pick fuel hostId now db = some (room, db2)) :
    room.room_code ∉ db.rooms.map RoomDoc.room_code
    ∧ (db2.rooms.map RoomDoc.room_code).Nodup := by
  obtain ⟨code, hf, hroom, hdb2⟩ := create_room_some pick fuel hostId now db room db2 h
  have hnone := (findFreshCode_some pick db fuel 0 code hf).1
  have hfresh : ∀ r ∈ db.rooms, ¬ r.room_code = code := by
    intro r hr
    have := List.find?_eq_none.mp hnone r hr
    simpa using this
  subst hroom
  subst hdb2
  constructor
  · show code ∉ _
    simp only [List.mem_map, not_exists, not_and]
    exact fun r hr hEq => hfresh r hr hEq
  · show (List.map RoomDoc.room_code (db.rooms ++ [_])).Nodup
    rw [List.map_append, List.nodup_append]
    refine ⟨hnd, List.nodup_singleton _, ?_⟩
    intro a ha hb
    simp only [List.map_cons, List.map_nil, List.mem_singleton] at hb
    subst hb
    simp only [List.mem_map] at ha
    obtain ⟨r, hr, hEq⟩ := ha
    exact hfresh r hr hEq

/-- Claim C2 witness at a concrete run of create_room on an empty store. -/
theorem c2_witness : "AAAAAA" ∉ ([] : List RoomDoc).map RoomDoc.room_code :=
  (c2_create_room_fresh (fun _ => 0) 1 "h1" 0 ⟨[], [], 0⟩ ⟨"AAAAAA", "h1", 0⟩
    ⟨[⟨0, "AAAAAA", "h1", 0⟩], [], 1⟩ (by decide) (by decide)).1

lemma upper_lower_of_mem_roomChars :
    ∀ c ∈ roomChars, Char.toUpper (Char.toLower c) = Char.toUpper c := by
  decide

/-- Claim C3: get_messages returns exactly the messages whose room_code
equals the uppercased input, in non-decreasing timestamp order, and the
empty sequence rather than an error when no message matches. -/
theorem c3_get_messages_spec (room_code : String) (db : DB) :
    List.Perm (roomMsgs room_code db.messages)
        (db.messages.filter (fun m => m.room_code == pyUpper room_code))
    ∧ List.Sorted tsLe (roomMsgs room_code db.messages)
    ∧ get_messages room_code db = (roomMsgs room_code db.messages).map msgOut
    ∧ List.Sorted (fun a b : MessageOut => a.timestamp ≤ b.timestamp)
        (get_messages room_code db)
    ∧ (∀ x ∈ get_messages room_code db,
        ∃ m ∈ db.messages, m.room_code = pyUpper room_code ∧ x = msgOut m)
    ∧ ((∀ m ∈ db.messages, ¬ m.room_code = pyUpper room_code) →
        get_messages room_code db = []) := by
  have hperm : List.Perm (roomMsgs room_code db.messages)
      (db.messages.filter (fun m => m.room_code == pyUpper room_code)) :=
    List.perm_insertionSort tsLe _
  have hsorted : List.Sorted tsLe (roomMsgs room_code db.messages) :=
    List.sorted_insertionSort tsLe _
  refine ⟨hperm, hsorted, rfl, ?_, ?_, ?_⟩
  · exact List.Pairwise.map msgOut (fun a b hab => hab) hsorted
  · intro x hx
    simp only [get_messages, List.mem_map] at hx
    obtain ⟨m, hm, rfl⟩ := hx
    have hmf := hperm.mem_iff.mp hm
    rw [List.mem_filter] at hmf
    exact ⟨m, hmf.1, by simpa using hmf.2, rfl⟩
  · intro hnone
    have hfil : db.messages.filter (fun m => m.room_code == pyUpper room_code) = [] := by
      rw [List.filter_eq_nil_iff]
      intro m hm
      simpa using hnone m hm
    simp [get_messages, roomMsgs, hfil]

/-- Claim C3 witness on an empty store. -/
theorem c3_witness : get_messages "X" ⟨[], [], 0⟩ = [] :=
  (c3_get_messages_spec "X" ⟨[], [], 0⟩).2.2.2.2.2 (by simp)

/-- Claim C4: join_room looks the room up by the uppercased input, so a
lowercase variant of a stored code finds the same room; it returns a
not-found error exactly when no room matches the normalized code, and
otherwise the room record with its store id converted to a string. -/
theorem c4_join_room_spec (room_code : String) (db : DB) :
    (join_room room_code db = .error (.notFound "Room not found")
        ↔ ∀ r ∈ db.rooms, ¬ r.room_code = pyUpper room_code)
    ∧ (∀ r, db.rooms.find? (fun r0 => r0.room_code == pyUpper room_code) = some r →
        join_room room_code db
          = .ok ⟨oidToString r.oid, r.room_code, r.hostId, r.createdAt⟩)
    ∧ ((∀ c ∈ room_code.data, c ∈ roomChars) →
        join_room (pyLower room_code) db = join_room room_code db) := by
  refine ⟨?_, ?_, ?_⟩
  · rw [join_room]
    cases hf : db.rooms.find? (fun r => r.room_code == pyUpper room_code) with
    | none =>
      simp only [true_iff]
      intro r hr
      have := List.find?_eq_none.mp hf r hr
      simpa using this
    | some r =>
      simp only [reduceCtorEq, false_iff, not_forall]
      refine ⟨r, List.mem_of_find?_eq_some hf, ?_⟩
      have hp := List.find?_some hf
      simpa using hp
  · intro r hf
    rw [join_room, hf]
  · intro hchars
    have hup : pyUpper (pyLower room_code) = pyUpper room_code := by
      simp only [pyUpper, pyLower, List.map_map]
      congr 1
      exact List.map_congr_left fun c hc =>
        upper_lower_of_mem_roomChars c (hchars c hc)
    rw [join_room, join_room, hup]

/-- Claim C4 witness: a lowercase join finds the room stored under the
uppercase code. -/
theorem c4_witness :
    join_room (pyLower "AB12CD") ⟨[⟨5, "AB12CD", "h1", 10⟩], [], 6⟩
      = join_room "AB12CD" ⟨[⟨5, "AB12CD", "h1", 10⟩], [], 6⟩ :=
  (c4_join_room_spec "AB12CD" ⟨[⟨5, "AB12CD", "h1", 10⟩], [], 6⟩).2.2 (by decide)

/-! Helper lemmas about update_one and delete_one on the messages
collection. -/

lemma updateOne_fst_eq_zero (oid : Nat) (b : Bool) (ms : List MessageDoc) :
    (updateOne oid b ms).1 = 0 ↔ ∀ m ∈ ms, ¬ m.oid = oid := by
  induction ms with
  | nil => simp [updateOne]
  | cons m rest ih =>
    by_cases hm : m.oid = oid
    · simp [updateOne, hm]
    · simp [updateOne, hm, ih]

lemma updateOne_pos (oid : Nat) (b : Bool) (ms : List MessageDoc)
    (hex : ∃ m ∈ ms, m.oid = oid) :
    ∃ pre m0 post, ms = pre ++ m0 :: post ∧ m0.oid = oid
      ∧ (∀ x ∈ pre, ¬ x.oid = oid)
      ∧ updateOne oid b ms = (1, pre ++ { m0 with isCompleted := b } :: post) := by
  induction ms with
  | nil => obtain ⟨m, hm, _⟩ := hex; cases hm
  | cons m rest ih =>
    by_cases hm : m.oid = oid
    · exact ⟨[], m, rest, rfl, hm, by simp, by simp [updateOne, hm]⟩
    · have hex2 : ∃ x ∈ rest, x.oid = oid := by
        obtain ⟨x, hx, hxo⟩ := hex
        rcases List.mem_cons.mp hx with rfl | hx2
        · exact absurd hxo hm
        · exact ⟨x, hx2, hxo⟩
      obtain ⟨pre, m0, post, hms, hm0, hpre, hupd⟩ := ih hex2
      refine ⟨m :: pre, m0, post, by rw [hms]; rfl, hm0, ?_, ?_⟩
      · intro x hx
        rcases List.mem_cons.mp hx with rfl | hx2
        · exact hm
        · exact hpre x hx2
      · simp [updateOne, hm, hupd]

lemma deleteOne_fst_eq_zero (oid : Nat) (ms : List MessageDoc) :
    (deleteOne oid ms).1 = 0 ↔ ∀ m ∈ ms, ¬ m.oid = oid := by
  induction ms with
  | nil => simp [deleteOne]
  | cons m rest ih =>
    by_cases hm : m.oid = oid
    · simp [deleteOne, hm]
    · simp [deleteOne, hm, ih]

lemma deleteOne_pos (oid : Nat) (ms : List MessageDoc)
    (hex : ∃ m ∈ ms, m.oid = oid) :
    ∃ pre m0 post, ms = pre ++ m0 :: post ∧ m0.oid = oid
      ∧ (∀ x ∈ pre, ¬ x.oid = oid)
      ∧ deleteOne oid ms = (1, pre ++ post) := by
  induction ms with
  | nil => obtain ⟨m, hm, _⟩ := hex; cases hm
  | cons m rest ih =>
    by_cases hm : m.oid = oid
    · exact ⟨[], m, rest, rfl, hm, by simp, by simp [deleteOne, hm]⟩
    · have hex2 : ∃ x ∈ rest, x.oid = oid := by
        obtain ⟨x, hx, hxo⟩ := hex
        rcases List.mem_cons.mp hx with rfl | hx2
        · exact absurd hxo hm
        · exact ⟨x, hx2, hxo⟩
      obtain ⟨pre, m0, post, hms, hm0, hpre, hdel⟩ := ih hex2
      refine ⟨m :: pre, m0, post, by rw [hms]; rfl, hm0, ?_, ?_⟩
      · intro x hx
        rcases List.mem_cons.mp hx with rfl | hx2
        · exact hm
        · exact hpre x hx2
      · simp [deleteOne, hm, hdel]

lemma no_oid_outside_middle (pre post : List MessageDoc) (m0 : MessageDoc) (oid : Nat)
    (hm0 : m0.oid = oid)
    (hnd : (((pre ++ m0 :: post).map MessageDoc.oid)).Nodup) :
    ∀ x ∈ pre ++ post, ¬ x.oid = oid := by
  rw [List.map_append, List.map_cons] at hnd
  have h2 := List.nodup_middle.mp hnd
  have h3 : m0.oid ∉ pre.map MessageDoc.oid ++ post.map MessageDoc.oid :=
    (List.nodup_cons.mp h2).1
  intro x hx hxo
  apply h3
  have hmem : x.oid ∈ (pre ++ post).map MessageDoc.oid := List.mem_map_of_mem _ hx
  rw [List.map_append] at hmem
  rw [hm0, ← hxo]
  exact hmem

lemma toggle_message_eq (message_id : String) (oid : Nat) (is_completed : Bool)
    (db : DB) (hp : parseObjectId message_id = some oid) :
    toggle_message message_id is_completed db
      = ((if (updateOne oid is_completed db.messages).1 = 0
            then .error (.notFound "Message not found") else .ok ()),
         ⟨db.rooms, (updateOne oid is_completed db.messages).2, db.nextOid⟩) := by
  simp only [toggle_message, hp]
  by_cases hz : (updateOne oid is_completed db.messages).1 = 0
  · simp [hz]
  · simp [hz]

lemma delete_message_eq (message_id : String) (oid : Nat) (db : DB)
    (hp : parseObjectId message_id = some oid) :
    delete_message message_id db
      = ((if (deleteOne oid db.messages).1 = 0
            then .error (.notFound "Message not found") else .ok ()),
         ⟨db.rooms, (deleteOne oid db.messages).2, db.nextOid⟩) := by
  simp only [delete_message, hp]
  by_cases hz : (deleteOne oid db.messages).1 = 0
  · simp [hz]
  · simp [hz]

/-- Claim C5: send_message always succeeds, inserting a message with the
uppercased room code, isCompleted false and the server timestamp; it
never inspects the rooms collection, and it returns an ok status with
the new store id as a string. -/
theorem c5_send_message_spec (room_code : String) (text : String) (now : Nat)
    (db : DB) :
    (send_message room_code text now db).2.messages
        = db.messages ++ [⟨db.nextOid, pyUpper room_code, text, false, now⟩]
    ∧ (send_message room_code text now db).2.rooms = db.rooms
    ∧ (send_message room_code text now db).2.nextOid = db.nextOid + 1
    ∧ (send_message room_code text now db).1 = ⟨"ok", oidToString db.nextOid⟩
    ∧ (∀ rooms2, (send_message room_code text now ⟨rooms2, db.messages, db.nextOid⟩).1
        = (send_message room_code text now db).1) :=
  ⟨rfl, rfl, rfl, rfl, fun _ => rfl⟩

/-- Claim C6: toggle_message signals bad request exactly when the id
fails to parse (leaving the store untouched), not found exactly when the
id parses but matches no message, and ok exactly when the id parses and
matches a message. -/
theorem c6_toggle_message_errors (message_id : String) (is_completed : Bool)
    (db : DB) :
    ((toggle_message message_id is_completed db).1
        = .error (.badRequest "Invalid message_id") ↔ parseObjectId message_id = none)
    ∧ (parseObjectId message_id = none →
        (toggle_message message_id is_completed db).2 = db)
    ∧ (∀ oid, parseObjectId message_id = some oid →
        ((toggle_message message_id is_completed db).1
            = .error (.notFound "Message not found")
          ↔ ∀ m ∈ db.messages, ¬ m.oid = oid))
    ∧ (∀ oid, parseObjectId message_id = some oid →
        ((toggle_message message_id is_completed db).1 = .ok ()
          ↔ ∃ m ∈ db.messages, m.oid = oid)) := by
  cases hp : parseObjectId message_id with
  | none =>
    refine ⟨by simp [toggle_message, hp], fun _ => by simp [toggle_message, hp],
      ?_, ?_⟩
    · intro oid h; cases h
    · intro oid h; cases h
  | some oid0 =>
    have hbranch : ∀ P : Prop, (¬ (updateOne oid0 is_completed db.messages).1 = 0 → P)
        → ((updateOne oid0 is_completed db.messages).1 = 0 → P) → P := fun P h1 h2 =>
      (em _).elim h2 h1
    refine ⟨?_, ?_, ?_, ?_⟩
    · simp only [toggle_message, hp]
      by_cases hz : (updateOne oid0 is_completed db.messages).1 = 0
      · simp [hz]
      · simp [hz]
    · intro h; cases h
    · intro oid h
      cases h
      rw [toggle_message_eq message_id oid0 is_completed db hp]
      by_cases hz : (updateOne oid0 is_completed db.messages).1 = 0
      · rw [if_pos hz]
        simpa using (updateOne_fst_eq_zero oid0 is_completed db.messages).mp hz
      · rw [if_neg hz]
        simp only [reduceCtorEq, false_iff, not_forall]
        have hex : ¬ ∀ m ∈ db.messages, ¬ m.oid = oid0 := fun hall =>
          hz ((updateOne_fst_eq_zero oid0 is_completed db.messages).mpr hall)
        push_neg at hex
        obtain ⟨m, hm, hmo⟩ := hex
        exact ⟨m, hm, fun hc => hc hmo⟩
    · intro oid h
      cases h
      rw [toggle_message_eq message_id oid0 is_completed db hp]
      by_cases hz : (updateOne oid0 is_completed db.messages).1 = 0
      · rw [if_pos hz]
        simp only [reduceCtorEq, false_iff, not_exists]
        have hall := (updateOne_fst_eq_zero oid0 is_completed db.messages).mp hz
        intro m
        simp only [not_and]
        exact fun hm => hall m hm
      · rw [if_neg hz]
        simp only [true_iff]
        have hex : ¬ ∀ m ∈ db.messages, ¬ m.oid = oid0 := fun hall =>
          hz ((updateOne_fst_eq_zero oid0 is_completed db.messages).mpr hall)
        push_neg at hex
        exact hex

/-- Claim C6 witness: a malformed id leaves the store unchanged, and a
well-formed id matching a stored message yields ok. -/
theorem c6_witness :
    (toggle_message "zzz" true ⟨[], [], 0⟩).2 = ⟨[], [], 0⟩
    ∧ (toggle_message "000000000000000000000001" true
        ⟨[], [⟨1, "R", "t", false, 0⟩], 2⟩).1 = .ok () := by
  constructor
  · exact (c6_toggle_message_errors "zzz" true ⟨[], [], 0⟩).2.1 (by decide)
  · exact ((c6_toggle_message_errors "000000000000000000000001" true
        ⟨[], [⟨1, "R", "t", false, 0⟩], 2⟩).2.2.2 1 (by decide)).mpr
      ⟨⟨1, "R", "t", false, 0⟩, by simp, rfl⟩

lemma deleteOne_of_no_match (oid : Nat) (ms : List MessageDoc)
    (hall : ∀ m ∈ ms, ¬ m.oid = oid) : deleteOne oid ms = (0, ms) := by
  induction ms with
  | nil => rfl
  | cons m rest ih =>
    have hm : ¬ m.oid = oid := hall m (List.mem_cons_self m rest)
    have ih2 := ih fun x hx => hall x (List.mem_cons_of_mem m hx)
    simp [deleteOne, hm, ih2]

lemma mem_of_mem_roomMsgs (rc : String) (ms : List MessageDoc) (x : MessageDoc)
    (hx : x ∈ roomMsgs rc ms) : x ∈ ms := by
  have hperm := List.perm_insertionSort tsLe
    (ms.filter (fun m => m.room_code == pyUpper rc))
  have := hperm.mem_iff.mp hx
  exact (List.mem_filter.mp this).1

/-- Claim C7: with a well-formed id and pairwise distinct stored ids,
delete_message removes exactly the one matching message, a subsequent
get_messages no longer includes it, a repeated delete of the same id
reports not found, and a delete matching nothing reports not found and
leaves the store unchanged. -/
theorem c7_delete_message_spec (message_id : String) (oid : Nat) (db : DB)
    (hp : parseObjectId message_id = some oid)
    (hnd : (db.messages.map MessageDoc.oid).Nodup) :
    ((∀ m ∈ db.messages, ¬ m.oid = oid) →
        (delete_message message_id db).1 = .error (.notFound "Message not found")
        ∧ (delete_message message_id db).2 = db)
    ∧ (∀ m ∈ db.messages, m.oid = oid →
        (delete_message message_id db).1 = .ok ()
        ∧ List.Perm db.messages (m :: (delete_message message_id db).2.messages)
        ∧ (delete_message message_id db).2.rooms = db.rooms
        ∧ (∀ x ∈ (delete_message message_id db).2.messages, ¬ x.oid = oid)
        ∧ (∀ rc, ∀ x ∈ roomMsgs rc (delete_message message_id db).2.messages,
            ¬ x.oid = oid)
        ∧ (delete_message message_id ((delete_message message_id db).2)).1
            = .error (.notFound "Message not found")) := by
  constructor
  · intro hall
    have hdel := deleteOne_of_no_match oid db.messages hall
    have heq := delete_message_eq message_id oid db hp
    constructor
    · rw [heq, hdel]
      simp
    · rw [heq, hdel]
  · intro m hm hmo
    obtain ⟨pre, m0, post, hms, hm0, hpre, hdel⟩ :=
      deleteOne_pos oid db.messages ⟨m, hm, hmo⟩
    have hout : ∀ x ∈ pre ++ post, ¬ x.oid = oid :=
      no_oid_outside_middle pre post m0 oid hm0 (hms ▸ hnd)
    have hmm0 : m = m0 := by
      rw [hms] at hm
      rcases List.mem_append.mp hm with h1 | h2
      · exact absurd hmo (hout m (List.mem_append_left _ h1))
      · rcases List.mem_cons.mp h2 with rfl | h3
        · rfl
        · exact absurd hmo (hout m (List.mem_append_right _ h3))
    have hfst : ¬ (deleteOne oid db.messages).1 = 0 := by rw [hdel]; simp
    have heq := delete_message_eq message_id oid db hp
    have hmsgs : (delete_message message_id db).2.messages = pre ++ post := by
      rw [heq, hdel]
    refine ⟨by rw [heq, if_neg hfst], ?_, by rw [heq], ?_, ?_, ?_⟩
    · rw [hmsgs, hms, hmm0]
      exact List.perm_middle
    · intro x hx
      rw [hmsgs] at hx
      exact hout x hx
    · intro rc x hx
      rw [hmsgs] at hx
      exact hout x (mem_of_mem_roomMsgs rc _ x hx)
    · have heq2 := delete_message_eq message_id oid ((delete_message message_id db).2) hp
      have hdel2 : deleteOne oid ((delete_message message_id db).2).messages
          = (0, (delete_message message_id db).2.messages) := by
        rw [hmsgs]
        exact deleteOne_of_no_match oid _ hout
      rw [heq2, hdel2]
      simp

/-- Claim C7 witness: deleting the only stored message succeeds, and
deleting it again reports not found. -/
theorem c7_witness :
    (delete_message "000000000000000000000001"
        ⟨[], [⟨1, "R", "t", false, 0⟩], 2⟩).1 = .ok ()
    ∧ (delete_message "000000000000000000000001"
        ((delete_message "000000000000000000000001"
          ⟨[], [⟨1, "R", "t", false, 0⟩], 2⟩).2)).1
      = .error (.notFound "Message not found") := by
  have h := (c7_delete_message_spec "000000000000000000000001" 1
      ⟨[], [⟨1, "R", "t", false, 0⟩], 2⟩ (by decide) (by decide)).2
      ⟨1, "R", "t", false, 0⟩ (by simp) rfl
  exact ⟨h.1, h.2.2.2.2.2⟩

/-- Claim C8: a successful toggle_message changes exactly the
isCompleted field of the single matching message; all other messages,
the rooms collection and the id counter are unchanged. -/
theorem c8_toggle_frame (message_id : String) (oid : Nat) (b : Bool) (db : DB)
    (hp : parseObjectId message_id = some oid)
    (hnd : (db.messages.map MessageDoc.oid).Nodup)
    (m : MessageDoc) (hm : m ∈ db.messages) (hmo : m.oid = oid) :
    ∃ pre post,
      db.messages = pre ++ m :: post
      ∧ (∀ x ∈ pre, ¬ x.oid = oid) ∧ (∀ x ∈ post, ¬ x.oid = oid)
      ∧ (toggle_message message_id b db).1 = .ok ()
      ∧ (toggle_message message_id b db).2.messages
          = pre ++ ⟨m.oid, m.room_code, m.text, b, m.timestamp⟩ :: post
      ∧ (toggle_message message_id b db).2.rooms = db.rooms
      ∧ (toggle_message message_id b db).2.nextOid = db.nextOid := by
  obtain ⟨pre, m0, post, hms, hm0, hpre, hupd⟩ :=
    updateOne_pos oid b db.messages ⟨m, hm, hmo⟩
  have hout : ∀ x ∈ pre ++ post, ¬ x.oid = oid :=
    no_oid_outside_middle pre post m0 oid hm0 (hms ▸ hnd)
  have hmm0 : m = m0 := by
    rw [hms] at hm
    rcases List.mem_append.mp hm with h1 | h2
    · exact absurd hmo (hout m (List.mem_append_left _ h1))
    · rcases List.mem_cons.mp h2 with rfl | h3
      · rfl
      · exact absurd hmo (hout m (List.mem_append_right _ h3))
  have hfst : ¬ (updateOne oid b db.messages).1 = 0 := by rw [hupd]; simp
  have heq := toggle_message_eq message_id oid b db hp
  subst hmm0
  refine ⟨pre, post, hms, fun x hx => hout x (List.mem_append_left _ hx),
    fun x hx => hout x (List.mem_append_right _ hx),
    by rw [heq, if_neg hfst], ?_, by rw [heq], by rw [heq]⟩
  rw [heq, hupd]

/-- Claim C8 witness at a concrete store with one message. -/
theorem c8_witness :
    (toggle_message "000000000000000000000001" true
        ⟨[], [⟨1, "R", "t", false, 0⟩], 2⟩).1 = .ok ()
    ∧ (toggle_message "000000000000000000000001" true
        ⟨[], [⟨1, "R", "t", false, 0⟩], 2⟩).2.rooms = [] := by
  obtain ⟨pre, post, h⟩ := c8_toggle_frame "000000000000000000000001" 1 true
    ⟨[], [⟨1, "R", "t", false, 0⟩], 2⟩ (by decide) (by decide)
    ⟨1, "R", "t", false, 0⟩ (by simp) rfl
  exact ⟨h.2.2.2.1, h.2.2.2.2.2.1⟩

lemma updateOne_idem (oid : Nat) (b : Bool) (ms : List MessageDoc) :
    updateOne oid b (updateOne oid b ms).2 = updateOne oid b ms := by
  induction ms with
  | nil => rfl
  | cons m rest ih =>
    by_cases hm : m.oid = oid
    · simp [updateOne, hm]
    · simp [updateOne, hm, ih]

/-- Claim C9: applying toggle_message twice with the same desired state
succeeds both times and leaves the store exactly as after the first
application. -/
theorem c9_toggle_idempotent (message_id : String) (oid : Nat) (b : Bool) (db : DB)
    (hp : parseObjectId message_id = some oid)
    (hex : ∃ m ∈ db.messages, m.oid = oid) :
    (toggle_message message_id b db).1 = .ok ()
    ∧ (toggle_message message_id b ((toggle_message message_id b db).2)).1 = .ok ()
    ∧ (toggle_message message_id b ((toggle_message message_id b db).2)).2
        = (toggle_message message_id b db).2 := by
  have hfst : ¬ (updateOne oid b db.messages).1 = 0 := fun h => by
    obtain ⟨m, hm, hmo⟩ := hex
    exact (updateOne_fst_eq_zero oid b db.messages).mp h m hm hmo
  have h1 := toggle_message_eq message_id oid b db hp
  have hmsgs1 : (toggle_message message_id b db).2.messages
      = (updateOne oid b db.messages).2 := by rw [h1]
  have hidem := updateOne_idem oid b db.messages
  have h2 := toggle_message_eq message_id oid b ((toggle_message message_id b db).2) hp
  have hfst2 : ¬ (updateOne oid b ((toggle_message message_id b db).2).messages).1 = 0 := by
    rw [hmsgs1, hidem]
    exact hfst
  refine ⟨by rw [h1, if_neg hfst], by rw [h2, if_neg hfst2], ?_⟩
  rw [h2, hmsgs1, hidem, ← hmsgs1, h1]

/-- Claim C9 witness: toggling the same message to true twice. -/
theorem c9_witness :
    (toggle_message "000000000000000000000001" true
        ((toggle_message "000000000000000000000001" true
          ⟨[], [⟨1, "R", "t", false, 0⟩], 2⟩).2)).2
      = (toggle_message "000000000000000000000001" true
          ⟨[], [⟨1, "R", "t", false, 0⟩], 2⟩).2 :=
  (c9_toggle_idempotent "000000000000000000000001" 1 true
    ⟨[], [⟨1, "R", "t", false, 0⟩], 2⟩ (by decide)
    ⟨⟨1, "R", "t", false, 0⟩, by simp, rfl⟩).2.2

/-- Claim C10: toggle_message and delete_message select their target by
the message id alone: with a well-formed id of a stored message both
succeed, and their outcome and resulting messages do not depend on the
rooms collection or on the id counter. -/
theorem c10_id_only_selection (message_id : String) (oid : Nat) (b : Bool)
    (rooms1 rooms2 : List RoomDoc) (ms : List MessageDoc) (n1 n2 : Nat)
    (hp : parseObjectId message_id = some oid)
    (hex : ∃ m ∈ ms, m.oid = oid) :
    (toggle_message message_id b ⟨rooms1, ms, n1⟩).1 = .ok ()
    ∧ (delete_message message_id ⟨rooms1, ms, n1⟩).1 = .ok ()
    ∧ (toggle_message message_id b ⟨rooms1, ms, n1⟩).1
        = (toggle_message message_id b ⟨rooms2, ms, n2⟩).1
    ∧ (toggle_message message_id b ⟨rooms1, ms, n1⟩).2.messages
        = (toggle_message message_id b ⟨rooms2, ms, n2⟩).2.messages
    ∧ (delete_message message_id ⟨rooms1, ms, n1⟩).1
        = (delete_message message_id ⟨rooms2, ms, n2⟩).1
    ∧ (delete_message message_id ⟨rooms1, ms, n1⟩).2.messages
        = (delete_message message_id ⟨rooms2, ms, n2⟩).2.messages := by
  have hu : ¬ (updateOne oid b ms).1 = 0 := fun h => by
    obtain ⟨m, hm, hmo⟩ := hex
    exact (updateOne_fst_eq_zero oid b ms).mp h m hm hmo
  have hd : ¬ (deleteOne oid ms).1 = 0 := fun h => by
    obtain ⟨m, hm, hmo⟩ := hex
    exact (deleteOne_fst_eq_zero oid ms).mp h m hm hmo
  refine ⟨?_, ?_, ?_, ?_, ?_, ?_⟩
  · rw [toggle_message_eq message_id oid b ⟨rooms1, ms, n1⟩ hp, if_neg hu]
  · rw [delete_message_eq message_id oid ⟨rooms1, ms, n1⟩ hp, if_neg hd]
  · rw [toggle_message_eq message_id oid b ⟨rooms1, ms, n1⟩ hp,
      toggle_message_eq message_id oid b ⟨rooms2, ms, n2⟩ hp]
  · rw [toggle_message_eq message_id oid b ⟨rooms1, ms, n1⟩ hp,
      toggle_message_eq message_id oid b ⟨rooms2, ms, n2⟩ hp]
  · rw [delete_message_eq message_id oid ⟨rooms1, ms, n1⟩ hp,
      delete_message_eq message_id oid ⟨rooms2, ms, n2⟩ hp]
  · rw [delete_message_eq message_id oid ⟨rooms1, ms, n1⟩ hp,
      delete_message_eq message_id oid ⟨rooms2, ms, n2⟩ hp]

/-- Claim C10 witness: the same message is toggled and deleted under two
different rooms collections. -/
theorem c10_witness :
    (toggle_message "000000000000000000000001" true
        ⟨[], [⟨1, "R", "t", false, 0⟩], 2⟩).1 = .ok ()
    ∧ (delete_message "000000000000000000000001"
        ⟨[⟨9, "ZZZZZZ", "h2", 3⟩], [⟨1, "R", "t", false, 0⟩], 2⟩).1
      = (delete_message "000000000000000000000001"
        ⟨[], [⟨1, "R", "t", false, 0⟩], 2⟩).1 := by
  have h := c10_id_only_selection "000000000000000000000001" 1 true
    [⟨9, "ZZZZZZ", "h2", 3⟩] [] [⟨1, "R", "t", false, 0⟩] 2 2 (by decide)
    ⟨⟨1, "R", "t", false, 0⟩, by simp, rfl⟩
  exact ⟨(c10_id_only_selection "000000000000000000000001" 1 true
    [] [] [⟨1, "R", "t", false, 0⟩] 2 2 (by decide)
    ⟨⟨1, "R", "t", false, 0⟩, by simp, rfl⟩).1, h.2.2.2.2.1⟩

end AnonSphere
